import Mathlib

/-!
Verification of the Meme Collection Manager backend.

Shallow embedding of the session/auth gateway (`backend/server.js`,
`backend/routes/auth.routes.js`, `backend/config/passport.js`) and of the
meme resource-access layer (documented in the repository's API
specification; the controller implementation itself is not present in the
repository, so those operations are modelled from the spec).

Conventions of the embedding:
- Mongo object ids are modelled as `Nat`.
- The Mongo `users` collection is a `List User`; the `memes` collection is
  a `List Meme`.  Index/uniqueness constraints declared by the Mongoose
  schemas appear as hypotheses (`Nodup`) or as explicit checks in `save`.
- The express session is the `Option Nat` produced by passport's
  `serializeUser` (the user's `_id`); an absent cookie is `none`.
- HTTP responses are a small inductive: JSON body, plain-text body, or a
  302 redirect (the three shapes the code can produce).
-/

namespace MemeManager

/-- A JSON value, used to state exactly which body a handler sends. -/
inductive Json where
  | null : Json
  | bool (b : Bool) : Json
  | num (n : Nat) : Json
  | str (s : String) : Json
  | arr (elems : List Json) : Json
  | obj (fields : List (String × Json)) : Json

/-- An HTTP response as produced by the Express handlers: a JSON body with a
status code, a plain-text body with a status code, or a 302 redirect. -/
inductive HttpResponse where
  | json (status : Nat) (body : Json) : HttpResponse
  | text (status : Nat) (body : String) : HttpResponse
  | redirect (location : String) : HttpResponse

/-- A stored user document, per the Mongoose schema in
`backend/models/user.model.js`: `googleId` (required, unique), `displayName`
(required), `email` (required, unique, lowercased, trimmed) and an optional
`profileImage`. `mongoId` is the Mongo `_id`. -/
structure User where
  mongoId : Nat
  googleId : String
  displayName : String
  email : String
  profileImage : Option String
deriving DecidableEq

/-- The profile payload delivered by the Google strategy to the verify
callback in `backend/config/passport.js`.  `displayName` may be absent, and
`emails` / `photos` may be absent arrays (`none`) or present arrays; the JS
code reads `profile.emails[0].value` and `profile.photos[0].value`, which
raises when the array is absent or empty, so only the head element matters. -/
structure GoogleProfile where
  id : String
  displayName : Option String
  emails : Option (List String)
  photos : Option (List String)

/-- ASCII lower-casing of one character (the case folding JS `toLowerCase`
performs on the ASCII range, which is what email addresses use). -/
def lowerChar (c : Char) : Char :=
  if c.toNat ≥ 65 && c.toNat ≤ 90 then Char.ofNat (c.toNat + 32) else c

/-- ASCII whitespace, for the `trim: true` schema option. -/
def isWs (c : Char) : Bool :=
  c == ' ' || c == '\t' || c == '\n' || c == '\r'

/-- Drop leading and trailing whitespace from a character list. -/
def trimChars (cs : List Char) : List Char :=
  ((cs.dropWhile isWs).reverse.dropWhile isWs).reverse

/-- Email normalization applied by the user schema (`lowercase: true`,
`trim: true`). -/
def normalizeEmail (e : String) : String :=
  ⟨(trimChars e.data).map lowerChar⟩

/-- `User.findOne({googleId : profile.id})` from the verify callback. -/
def findByGoogleId (db : List User) (gid : String) : Option User :=
  db.find? (fun u => u.googleId == gid)

/-- `new User({...}).save()` for the creation branch of the verify callback:
fails (rejected promise) when a required field (`displayName`, `email`) is
missing or when a unique index (`googleId`, `email`) is violated; otherwise
appends the new document.  The email is stored normalized per the schema. -/
def userSave (db : List User) (freshId : Nat) (gid : String)
    (name : Option String) (email : Option String) (photo : Option String) :
    Option (User × List User) :=
  match name, email with
  | some nm, some em =>
      let em' := normalizeEmail em
      if db.any (fun u => u.googleId == gid) then none
      else if db.any (fun u => u.email == em') then none
      else
        let u : User := ⟨freshId, gid, nm, em', photo⟩
        some (u, db ++ [u])
  | _, _ => none

/-- The GoogleStrategy verify callback of `backend/config/passport.js`:
look the user up by `googleId`; if found, `done(null, user)` with the store
untouched; otherwise create a user from the profile payload.  Reading
`profile.emails[0].value` / `profile.photos[0].value` on an absent or empty
array raises, and the surrounding `try/catch` turns any raise or save
failure into `done(error, null)`, modelled as `(none, db)`. -/
def googleVerify (db : List User) (freshId : Nat) (p : GoogleProfile) :
    Option User × List User :=
  match findByGoogleId db p.id with
  | some u => (some u, db)
  | none =>
      match p.emails.bind List.head?, p.photos.bind List.head? with
      | some em, some ph =>
          match userSave db freshId p.id p.displayName (some em) (some ph) with
          | some (u, db') => (some u, db')
          | none => (none, db)
      | _, _ => (none, db)

/-- `passport.serializeUser`: the session stores the user's `_id`. -/
def serializeUser (u : User) : Nat :=
  u.mongoId

/-- `passport.deserializeUser`: `User.findById(id)`. -/
def deserializeUser (db : List User) (id : Nat) : Option User :=
  db.find? (fun u => u.mongoId == id)

/-- The identity attached to a request by `passport.session()`: the session
cookie's serialized id deserialized against the user store; `none` when the
cookie is absent or names no stored user (then `req.isAuthenticated()` is
false). -/
def currentUser (db : List User) (session : Option Nat) : Option User :=
  session.bind (deserializeUser db)

/-- The JSON rendering of a user document, as `res.json(req.user)` sends it. -/
def userToJson (u : User) : Json :=
  Json.obj [("_id", Json.num u.mongoId),
            ("googleId", Json.str u.googleId),
            ("displayName", Json.str u.displayName),
            ("email", Json.str u.email),
            ("profileImage", match u.profileImage with
                             | some s => Json.str s
                             | none => Json.null)]

/-- `GET /auth/current_user` from `backend/routes/auth.routes.js`: if
`req.isAuthenticated()` then `res.json(req.user)` else
`res.status(401).json(` the message object `)`. -/
def currentUserRoute (db : List User) (session : Option Nat) : HttpResponse :=
  match currentUser db session with
  | some u => HttpResponse.json 200 (userToJson u)
  | none => HttpResponse.json 401 (Json.obj [("message", Json.str "Unauthorized")])

/-- The centralized error-handling middleware of `backend/server.js`:
`res.status(500).send(` a fixed plain-text string `)`. -/
def serverErrorResponse : HttpResponse :=
  HttpResponse.text 500 "Something broke!"

/-- `GET /auth/logout` from `backend/routes/auth.routes.js`: `req.logout`
clears the session (passport deletes the login state from the in-memory
express-session record; for an absent or invalid session this is a no-op),
then the handler redirects to `FRONTEND_URL + /login`.  The `err` branch of
the logout callback can only be reached by a session-store I/O failure,
which is outside this model of the store. -/
def logoutRoute (frontendUrl : String) (session : Option Nat) :
    Option Nat × HttpResponse :=
  match session with
  | _ => (none, HttpResponse.redirect (frontendUrl ++ "/login"))

/-- Outcome of the provider leg of `GET /auth/google/callback` before the
verify callback runs: the user denied consent (an authentication failure in
passport, which triggers `failureRedirect`), the code-for-token exchange
errored (an error in passport, which flows to `next(err)`), or a verified
profile was delivered to the verify callback. -/
inductive ProviderOutcome where
  | denied : ProviderOutcome
  | exchangeError : ProviderOutcome
  | profile (p : GoogleProfile) : ProviderOutcome

/-- `GET /auth/google/callback` from `backend/routes/auth.routes.js`,
dispatched per passport's documented semantics: an authentication failure
(denied consent) triggers the configured `failureRedirect`
(`FRONTEND_URL + /login`); a strategy or verify-callback error flows to
`next(err)` and is answered by the centralized 500 handler of `server.js`;
a verify success logs the user in (`serializeUser` binds the session) and
the route handler redirects to `FRONTEND_URL + /`.  Returns the user store,
the session after the request, and the response. -/
def googleCallbackRoute (frontendUrl : String) (db : List User)
    (freshId : Nat) (outcome : ProviderOutcome) :
    List User × Option Nat × HttpResponse :=
  match outcome with
  | ProviderOutcome.denied =>
      (db, none, HttpResponse.redirect (frontendUrl ++ "/login"))
  | ProviderOutcome.exchangeError => (db, none, serverErrorResponse)
  | ProviderOutcome.profile p =>
      match googleVerify db freshId p with
      | (some u, db') =>
          (db', some (serializeUser u), HttpResponse.redirect (frontendUrl ++ "/"))
      | (none, db') => (db', none, serverErrorResponse)

/-- Whether a JSON body has the uniform envelope shape
`status.success`, `status.error`, `data` required by the repository's API
specification. -/
def isEnvelope (j : Json) : Bool :=
  match j with
  | Json.obj fields =>
      (match fields.lookup "status" with
       | some (Json.obj statusFields) =>
           (statusFields.lookup "success").isSome &&
           (statusFields.lookup "error").isSome
       | _ => false) &&
      (fields.lookup "data").isSome
  | _ => false

/-- Modelled from the spec: the meme document, per the Mongoose schema
documented in the repository (`backend/models/meme.model.js` is given only
in the schema documents): `user` (the owner, required), `caption`
(required), `imageUrl` (required), `category` (required, enum) and the
like system's `likedBy` set of user ids (each user at most once; the like
count is its cardinality).  `mongoId` is the Mongo `_id`. -/
structure Meme where
  mongoId : Nat
  owner : Nat
  caption : String
  imageUrl : String
  category : String
  likedBy : Finset Nat
deriving DecidableEq

/-- The enumerated category set, from `backend/config/constants.js` as
documented (`MEME_CATEGORIES`). -/
def MEME_CATEGORIES : List String :=
  ["Funny", "Relatable", "Dark", "Wholesome"]

/-- Outcome of a meme API operation: success with a payload, or an error
carrying the HTTP status, a machine-readable code and a human-readable
message, per the repository's error-envelope documentation. -/
inductive ApiOut (α : Type) where
  | ok (value : α) : ApiOut α
  | err (status : Nat) (code : String) (message : String) : ApiOut α
deriving DecidableEq

/-- The `404 NOT_FOUND` result shared by a non-existent id and a not-owned
id, per the API specification's non-disclosure rule. -/
def memeNotFound {α : Type} : ApiOut α :=
  ApiOut.err 404 "NOT_FOUND" "Meme not found."

/-- Modelled from the spec: the ownership-scoped lookup every per-id
operation performs — `findOne` by `_id` AND `user`, so that a meme that
does not exist and a meme owned by someone else produce the same `none`. -/
def findOwnedMeme (db : List Meme) (caller id : Nat) : Option Meme :=
  db.find? (fun m => m.mongoId == id && m.owner == caller)

/-- Lookup by `_id` only (used by toggle-like, which does not require
ownership). -/
def findMemeAny (db : List Meme) (id : Nat) : Option Meme :=
  db.find? (fun m => m.mongoId == id)

/-- Replace the meme with the given `_id` by `m'` (the write-back of an
update to a single document). -/
def updateById (db : List Meme) (id : Nat) (m' : Meme) : List Meme :=
  db.map (fun x => if x.mongoId == id then m' else x)

/-- Modelled from the spec: `GET /api/memes/:id` (the controller is not in
the repository) — return the meme if it exists and belongs to the caller,
otherwise the `404 NOT_FOUND` result. -/
def getMeme (db : List Meme) (caller id : Nat) : ApiOut Meme :=
  match findOwnedMeme db caller id with
  | some m => ApiOut.ok m
  | none => memeNotFound

/-- Modelled from the spec: `PUT /api/memes/:id` (the controller is not in
the repository) — same ownership check as get; partial updates of caption
and category; each changed field re-validated under the create rules
(caption non-empty, category in the enumerated set); returns the full
updated record and the updated store. -/
def updateMeme (db : List Meme) (caller id : Nat)
    (caption : Option String) (category : Option String) :
    ApiOut (Meme × List Meme) :=
  match findOwnedMeme db caller id with
  | none => memeNotFound
  | some m =>
      let capOk := match caption with
                   | some c => !(trimChars c.data).isEmpty
                   | none => true
      let catOk := match category with
                   | some c => MEME_CATEGORIES.contains c
                   | none => true
      if capOk && catOk then
        let m' := { m with caption := caption.getD m.caption,
                           category := category.getD m.category }
        ApiOut.ok (m', updateById db id m')
      else
        ApiOut.err 400 "INVALID_INPUT" "Invalid field value."

/-- Modelled from the spec: `DELETE /api/memes/:id` (the controller is not
in the repository) — same ownership check; removes the record; a missing or
not-owned id is the `404 NOT_FOUND` result. -/
def deleteMeme (db : List Meme) (caller id : Nat) : ApiOut (List Meme) :=
  match findOwnedMeme db caller id with
  | none => memeNotFound
  | some _ => ApiOut.ok (db.filter (fun x => !(x.mongoId == id && x.owner == caller)))

/-- The pure toggle on the like-set: `$pull` the caller if present,
`$addToSet` the caller if absent. -/
def toggleSet (s : Finset Nat) (u : Nat) : Finset Nat :=
  if u ∈ s then s.erase u else insert u s

/-- Modelled from the spec: `POST /api/memes/:id/toggle-like` (the
controller is not in the repository) — requires only that the meme exists
and the caller is authenticated; adds the caller to the like-set if absent
or removes them if present, and reports which action occurred (`liked`)
together with the resulting like count; `404 NOT_FOUND` when the id names
no meme. -/
def toggleLike (db : List Meme) (caller id : Nat) :
    ApiOut (Bool × Nat × List Meme) :=
  match findMemeAny db id with
  | none => memeNotFound
  | some m =>
      if caller ∈ m.likedBy then
        let m' := { m with likedBy := m.likedBy.erase caller }
        ApiOut.ok (false, m'.likedBy.card, updateById db id m')
      else
        let m' := { m with likedBy := insert caller m.likedBy }
        ApiOut.ok (true, m'.likedBy.card, updateById db id m')

/-- Whether `pat` occurs at the head of the character list. -/
def matchesAt : List Char → List Char → Bool
  | _, [] => true
  | [], _ :: _ => false
  | h :: t, ph :: pt => h == ph && matchesAt t pt

/-- Whether `pat` occurs anywhere in the character list. -/
def containsSub : List Char → List Char → Bool
  | [], pat => pat.isEmpty
  | h :: t, pat => matchesAt (h :: t) pat || containsSub t pat

/-- Case-insensitive substring test on the caption, for the free-text
search filter. -/
def containsCI (caption pat : String) : Bool :=
  containsSub (caption.data.map lowerChar) (pat.data.map lowerChar)

/-- The page of a list response: items plus the pagination metadata
`totalItems`, `totalPages`, `currentPage`. -/
structure MemeListPage where
  items : List Meme
  totalItems : Nat
  totalPages : Nat
  currentPage : Nat
deriving DecidableEq

/-- Modelled from the spec: `GET /api/memes` (the controller is not in the
repository) — only the caller's own memes, optionally filtered by category
and by case-insensitive caption substring; 1-indexed pagination with
`totalPages = ceiling(totalItems / limit)` and the page slice
`[(page-1)*limit, page*limit)`. -/
def listMemes (db : List Meme) (caller : Nat) (page limit : Nat)
    (category : Option String) (search : Option String) : MemeListPage :=
  let own := db.filter (fun m => m.owner == caller)
  let filtered := own.filter (fun m =>
    (match category with
     | some c => m.category == c
     | none => true) &&
    (match search with
     | some s => containsCI m.caption s
     | none => true))
  { items := (filtered.drop ((page - 1) * limit)).take limit
    totalItems := filtered.length
    totalPages := (filtered.length + limit - 1) / limit
    currentPage := page }

/-! ### Helper lemmas -/

/-- In a store whose keys are duplicate-free, the first-match lookup for a
stored element's key finds exactly that element. -/
theorem find?_key_eq_of_mem {α : Type} (key : α → Nat) {db : List α} {u : α}
    (hmem : u ∈ db) (hids : (db.map key).Nodup) :
    db.find? (fun x => key x == key u) = some u := by
  induction db with
  | nil => cases hmem
  | cons h t ih =>
    simp only [List.map_cons, List.nodup_cons] at hids
    rcases List.mem_cons.mp hmem with rfl | hmem'
    · exact List.find?_cons_of_pos t (by simp)
    · have hne : key h ≠ key u := by
        intro he
        exact hids.1 (he ▸ List.mem_map_of_mem key hmem')
      rw [List.find?_cons_of_neg t (by simp [hne])]
      exact ih hmem' hids.2

/-- Two stored elements with the same key are equal when the keys are
duplicate-free. -/
theorem eq_of_key_eq {α : Type} (key : α → Nat) {db : List α} {x y : α}
    (hx : x ∈ db) (hy : y ∈ db) (hids : (db.map key).Nodup)
    (hkey : key x = key y) : x = y :=
  List.inj_on_of_nodup_map hids hx hy hkey

/-- After writing `m'` over the document that a lookup found, the same
lookup finds `m'` (the write targets the id the lookup matched). -/
theorem findMemeAny_updateById {db : List Meme} {id : Nat} {m : Meme} (m' : Meme)
    (hfind : findMemeAny db id = some m) (hid : m'.mongoId = m.mongoId) :
    findMemeAny (updateById db id m') id = some m' := by
  induction db with
  | nil => simp [findMemeAny] at hfind
  | cons h t ih =>
    by_cases hh : (h.mongoId == id) = true
    · have hhm : h = m := by
        have := hfind
        rw [findMemeAny, List.find?_cons_of_pos t hh] at this
        exact Option.some.inj this
      have hm' : (m'.mongoId == id) = true := by
        rw [hid, ← hhm]
        exact hh
      simp only [updateById, List.map_cons, if_pos hh]
      exact List.find?_cons_of_pos _ hm'
    · have hfind' : findMemeAny t id = some m := by
        rw [findMemeAny, List.find?_cons_of_neg t hh] at hfind
        exact hfind
      have h2 := ih hfind'
      simp only [findMemeAny, updateById] at h2 ⊢
      simp only [List.map_cons, if_neg hh]
      have hstep :
          List.find? (fun x => x.mongoId == id)
            (h :: List.map (fun x => if (x.mongoId == id) = true then m' else x) t) =
          List.find? (fun x => x.mongoId == id)
            (List.map (fun x => if (x.mongoId == id) = true then m' else x) t) :=
        List.find?_cons_of_neg _ hh
      rw [hstep]
      exact h2

/-- Writing twice to the same id keeps only the second write. -/
theorem updateById_twice {db : List Meme} {id : Nat} (m₁ m₂ : Meme)
    (h1 : (m₁.mongoId == id) = true) :
    updateById (updateById db id m₁) id m₂ = updateById db id m₂ := by
  simp only [updateById, List.map_map]
  refine List.map_congr_left ?_
  intro x _
  by_cases hx : (x.mongoId == id) = true <;> simp [Function.comp, hx, h1]

/-- A write to an id that occurs nowhere in the store is the identity. -/
theorem updateById_no_match {db : List Meme} {id : Nat} (m' : Meme)
    (h : ∀ x ∈ db, (x.mongoId == id) = false) : updateById db id m' = db := by
  induction db with
  | nil => rfl
  | cons hd t ih =>
    simp only [updateById, List.map_cons]
    rw [if_neg (by simp [h hd (List.mem_cons_self hd t)])]
    have := ih (fun x hx => h x (List.mem_cons_of_mem hd hx))
    simp only [updateById] at this
    rw [this]

/-- Writing back the very document a lookup found is the identity when ids
are duplicate-free. -/
theorem updateById_self {db : List Meme} {id : Nat} {m : Meme}
    (hfind : findMemeAny db id = some m)
    (hids : (db.map Meme.mongoId).Nodup) : updateById db id m = db := by
  induction db with
  | nil => rfl
  | cons h t ih =>
    simp only [List.map_cons, List.nodup_cons] at hids
    by_cases hh : (h.mongoId == id) = true
    · have hhm : h = m := by
        have := hfind
        rw [findMemeAny, List.find?_cons_of_pos t hh] at this
        exact Option.some.inj this
      have htail : ∀ x ∈ t, (x.mongoId == id) = false := by
        intro x hx
        by_contra hbx
        have hxid : x.mongoId = id := by simpa using hbx
        have hhid : h.mongoId = id := beq_iff_eq.mp hh
        have hmm : x.mongoId ∈ List.map Meme.mongoId t :=
          List.mem_map_of_mem Meme.mongoId hx
        rw [hxid, ← hhid] at hmm
        exact hids.1 hmm
      simp only [updateById, List.map_cons, if_pos hh, ← hhm]
      have := @updateById_no_match t id h htail
      simp only [updateById] at this
      rw [this]
    · have hfind' : findMemeAny t id = some m := by
        rw [findMemeAny, List.find?_cons_of_neg t hh] at hfind
        exact hfind
      simp only [updateById, List.map_cons, if_neg hh]
      have := ih hfind' hids.2
      simp only [updateById] at this
      rw [this]

/-- Number of stored users carrying a given external subject identifier. -/
def countByGoogleId (db : List User) (gid : String) : Nat :=
  (db.filter (fun u => u.googleId == gid)).length

/-- A store whose `googleId`s are duplicate-free holds exactly one document
with the `googleId` of any stored member. -/
theorem countByGoogleId_eq_one {db : List User} {w : User} {gid : String}
    (hmem : w ∈ db) (hw : w.googleId = gid)
    (hn : (db.map User.googleId).Nodup) : countByGoogleId db gid = 1 := by
  induction db with
  | nil => cases hmem
  | cons h t ih =>
    simp only [List.map_cons, List.nodup_cons] at hn
    rcases List.mem_cons.mp hmem with rfl | hmem'
    · have htail : t.filter (fun u => u.googleId == gid) = [] := by
        rw [List.filter_eq_nil_iff]
        intro x hx
        simp only [beq_iff_eq]
        intro hxg
        have hmm : x.googleId ∈ List.map User.googleId t :=
          List.mem_map_of_mem User.googleId hx
        rw [hxg, ← hw] at hmm
        exact hn.1 hmm
      simp [countByGoogleId, List.filter_cons, hw, htail]
    · have hne : (h.googleId == gid) = false := by
        simp only [beq_eq_false_iff_ne, ne_eq]
        intro he
        have hmm : w.googleId ∈ List.map User.googleId t :=
          List.mem_map_of_mem User.googleId hmem'
        rw [hw, ← he] at hmm
        exact hn.1 hmm
      have := ih hmem' hn.2
      simp only [countByGoogleId] at this
      simp [countByGoogleId, List.filter_cons, hne, this]

/-! ### Claim theorems -/

/-- C1.  The claim says `GET /auth/current_user` with an invalid or absent
session returns HTTP 200 with `data` equal to null, never a 401.  The code
disagrees: for an absent cookie, and equally for a session id that matches
no stored user, the handler sends status 401 with the body
`message: Unauthorized` — not a 200 and not a null `data`.  (The valid
branch does return the stored user record, and the handler performs no
side effect, but the unauthenticated behaviour contradicts the repository's
own API specification.) -/
theorem current_user_unauthenticated_is_401 :
    (∀ db : List User,
        currentUserRoute db none =
          HttpResponse.json 401 (Json.obj [("message", Json.str "Unauthorized")])) ∧
    (∀ id : Nat,
        currentUserRoute [] (some id) =
          HttpResponse.json 401 (Json.obj [("message", Json.str "Unauthorized")])) := by
  exact ⟨fun db => rfl, fun id => rfl⟩

/-- C6.  The claim says every JSON response is wrapped in the uniform
envelope and every error carries a machine-readable code and message inside
it.  The code disagrees on the auth surface: the unauthenticated
`current_user` body is a bare message object with no envelope and no code,
the authenticated branch sends the bare user record, and the centralized
error handler answers with a plain-text 500, not JSON at all. -/
theorem responses_not_enveloped :
    currentUserRoute [] none =
      HttpResponse.json 401 (Json.obj [("message", Json.str "Unauthorized")]) ∧
    isEnvelope (Json.obj [("message", Json.str "Unauthorized")]) = false ∧
    (∀ u : User, currentUserRoute [u] (some u.mongoId) =
        HttpResponse.json 200 (userToJson u)) ∧
    (∀ u : User, isEnvelope (userToJson u) = false) ∧
    serverErrorResponse = HttpResponse.text 500 "Something broke!" := by
  refine ⟨rfl, rfl, ?_, ?_, rfl⟩
  · intro u
    simp [currentUserRoute, currentUser, deserializeUser, List.find?]
  · intro u
    simp [isEnvelope, userToJson, List.lookup]

/-- C7.  The claim says every failed login attempt — denied consent,
token-exchange error, or a payload missing a required profile field — is
redirected to the configured failure destination with no session and no
user created.  On the code, denied consent does take the `failureRedirect`,
and no failure path touches the user store or binds a session; but a
token-exchange error and a malformed profile (here: a payload with no email
array) surface through `done(error)` / `next(err)` as the centralized
plain-text 500, not as the failure redirect. -/
theorem callback_failure_routes :
    (∀ (fud : String) (db : List User) (freshId : Nat),
        googleCallbackRoute fud db freshId ProviderOutcome.denied =
          (db, none, HttpResponse.redirect (fud ++ "/login"))) ∧
    (∀ (fud : String) (db : List User) (freshId : Nat),
        googleCallbackRoute fud db freshId ProviderOutcome.exchangeError =
          (db, none, serverErrorResponse)) ∧
    (∀ (fud gid : String) (nm : Option String) (ph : Option (List String))
        (freshId : Nat),
        googleCallbackRoute fud [] freshId
          (ProviderOutcome.profile ⟨gid, nm, none, ph⟩) =
          ([], none, serverErrorResponse)) := by
  refine ⟨fun _ _ _ => rfl, fun _ _ _ => rfl, ?_⟩
  intro fud gid nm ph freshId
  simp [googleCallbackRoute, googleVerify, findByGoogleId]

/-- C8.  Terminating the session: for any caller — valid session, invalid
session id, or no session at all — the logout route clears the session
(idempotently, never an error) and redirects to the configured landing
destination; afterwards no identity is attached to requests. -/
theorem logout_clears_session (fud : String) (db : List User) (s : Option Nat) :
    logoutRoute fud s = (none, HttpResponse.redirect (fud ++ "/login")) ∧
    currentUser db (logoutRoute fud s).1 = none ∧
    logoutRoute fud (logoutRoute fud s).1 = logoutRoute fud s := by
  exact ⟨rfl, rfl, rfl⟩

/-- C9.  Frame property of repeat login: when the subject identifier
already maps to a stored user, the verify callback returns that stored
record and leaves the user store — hence every field of that record —
exactly as it was before the login. -/
theorem repeat_login_preserves_profile (db : List User) (freshId : Nat)
    (p : GoogleProfile) (w : User)
    (hfound : findByGoogleId db p.id = some w) :
    googleVerify db freshId p = (some w, db) := by
  unfold googleVerify
  rw [hfound]

/-- Witness for C9: a returning profile with changed name, email and
avatar leaves the stored first-login record untouched. -/
theorem repeat_login_preserves_profile_witness :
    findByGoogleId [⟨1, "g1", "Old Name", "old@x.com", none⟩] "g1" =
      some ⟨1, "g1", "Old Name", "old@x.com", none⟩ ∧
    googleVerify [⟨1, "g1", "Old Name", "old@x.com", none⟩] 2
        ⟨"g1", some "New Name", some ["new@x.com"], some ["newpic"]⟩ =
      (some ⟨1, "g1", "Old Name", "old@x.com", none⟩,
       [⟨1, "g1", "Old Name", "old@x.com", none⟩]) :=
  ⟨by decide,
   repeat_login_preserves_profile _ 2
     ⟨"g1", some "New Name", some ["new@x.com"], some ["newpic"]⟩
     ⟨1, "g1", "Old Name", "old@x.com", none⟩ (by decide)⟩

/-- C10.  Session serialization round-trip: the stored session key is
exactly the user's local database id, and for a user present in a store
with duplicate-free ids, deserializing the serialized key yields that very
user record. -/
theorem session_roundtrip (db : List User) (u : User)
    (hmem : u ∈ db) (hids : (db.map User.mongoId).Nodup) :
    serializeUser u = u.mongoId ∧
    deserializeUser db (serializeUser u) = some u :=
  ⟨rfl, find?_key_eq_of_mem User.mongoId hmem hids⟩

/-- Witness for C10: the round-trip at a concrete two-user store. -/
theorem session_roundtrip_witness :
    (⟨2, "g2", "Bea", "b@x.com", none⟩ : User) ∈
      [⟨1, "g1", "Al", "a@x.com", none⟩, ⟨2, "g2", "Bea", "b@x.com", none⟩] ∧
    (([⟨1, "g1", "Al", "a@x.com", none⟩,
       ⟨2, "g2", "Bea", "b@x.com", none⟩] : List User).map User.mongoId).Nodup ∧
    serializeUser ⟨2, "g2", "Bea", "b@x.com", none⟩ = 2 ∧
    deserializeUser
        [⟨1, "g1", "Al", "a@x.com", none⟩, ⟨2, "g2", "Bea", "b@x.com", none⟩]
        (serializeUser ⟨2, "g2", "Bea", "b@x.com", none⟩) =
      some ⟨2, "g2", "Bea", "b@x.com", none⟩ := by
  refine ⟨by decide, by decide, ?_, ?_⟩
  · exact (session_roundtrip
      [⟨1, "g1", "Al", "a@x.com", none⟩, ⟨2, "g2", "Bea", "b@x.com", none⟩]
      ⟨2, "g2", "Bea", "b@x.com", none⟩ (by decide) (by decide)).1
  · exact (session_roundtrip
      [⟨1, "g1", "Al", "a@x.com", none⟩, ⟨2, "g2", "Bea", "b@x.com", none⟩]
      ⟨2, "g2", "Bea", "b@x.com", none⟩ (by decide) (by decide)).2

/-- C2.  Non-disclosure of other users' resources: for a meme owned by
`u1` and any other user `u2`, the per-id get, update and delete performed
by `u2` on that meme's id return exactly the same result as the same
operation on an id that no meme has at all — and that common result is the
`404 NOT_FOUND` error. -/
theorem ownership_indistinguishable (db : List Meme) (m : Meme)
    (u1 u2 ghostId : Nat) (cap cat : Option String)
    (hmem : m ∈ db) (howner : m.owner = u1) (hne : u1 ≠ u2)
    (hghost : ∀ x ∈ db, x.mongoId ≠ ghostId)
    (hids : (db.map Meme.mongoId).Nodup) :
    getMeme db u2 m.mongoId = getMeme db u2 ghostId ∧
    updateMeme db u2 m.mongoId cap cat = updateMeme db u2 ghostId cap cat ∧
    deleteMeme db u2 m.mongoId = deleteMeme db u2 ghostId ∧
    getMeme db u2 m.mongoId = (memeNotFound : ApiOut Meme) := by
  have hnone1 : findOwnedMeme db u2 m.mongoId = none := by
    rw [findOwnedMeme]
    refine List.find?_eq_none.mpr ?_
    intro x hx
    simp only [Bool.and_eq_true, beq_iff_eq, not_and]
    intro hxid hxo
    have hxm : x = m := eq_of_key_eq Meme.mongoId hx hmem hids hxid
    rw [hxm, howner] at hxo
    exact hne hxo
  have hnone2 : findOwnedMeme db u2 ghostId = none := by
    rw [findOwnedMeme]
    refine List.find?_eq_none.mpr ?_
    intro x hx
    simp only [Bool.and_eq_true, beq_iff_eq, not_and]
    intro hxid _
    exact hghost x hx hxid
  refine ⟨?_, ?_, ?_, ?_⟩ <;>
    simp [getMeme, updateMeme, deleteMeme, hnone1, hnone2]

/-- Witness for C2: a store with one meme owned by user 10; user 20 gets
the same `404 NOT_FOUND` for that meme's id as for the unused id 99. -/
theorem ownership_indistinguishable_witness :
    (⟨1, 10, "cat pic", "http://img/x.png", "Funny", ∅⟩ : Meme) ∈
      [(⟨1, 10, "cat pic", "http://img/x.png", "Funny", ∅⟩ : Meme)] ∧
    (⟨1, 10, "cat pic", "http://img/x.png", "Funny", ∅⟩ : Meme).owner = 10 ∧
    (10 : Nat) ≠ 20 ∧
    (∀ x ∈ [(⟨1, 10, "cat pic", "http://img/x.png", "Funny", ∅⟩ : Meme)],
        x.mongoId ≠ 99) ∧
    (([(⟨1, 10, "cat pic", "http://img/x.png", "Funny", ∅⟩ : Meme)].map
        Meme.mongoId).Nodup) ∧
    (getMeme [⟨1, 10, "cat pic", "http://img/x.png", "Funny", ∅⟩] 20 1 =
        getMeme [⟨1, 10, "cat pic", "http://img/x.png", "Funny", ∅⟩] 20 99 ∧
     updateMeme [⟨1, 10, "cat pic", "http://img/x.png", "Funny", ∅⟩] 20 1
         (some "new caption") (some "Dark") =
       updateMeme [⟨1, 10, "cat pic", "http://img/x.png", "Funny", ∅⟩] 20 99
         (some "new caption") (some "Dark") ∧
     deleteMeme [⟨1, 10, "cat pic", "http://img/x.png", "Funny", ∅⟩] 20 1 =
       deleteMeme [⟨1, 10, "cat pic", "http://img/x.png", "Funny", ∅⟩] 20 99 ∧
     getMeme [⟨1, 10, "cat pic", "http://img/x.png", "Funny", ∅⟩] 20 1 =
       (memeNotFound : ApiOut Meme)) :=
  ⟨by decide, by decide, by decide, by decide, by decide,
   ownership_indistinguishable
     [⟨1, 10, "cat pic", "http://img/x.png", "Funny", ∅⟩]
     ⟨1, 10, "cat pic", "http://img/x.png", "Funny", ∅⟩
     10 20 99 (some "new caption") (some "Dark")
     (by decide) (by decide) (by decide) (by decide) (by decide)⟩

/-- C3.  Successful OAuth callback: the verify callback looks the subject
identifier up; if a user exists it is returned and the store is untouched,
otherwise exactly one user is created from the provider profile (display
name, normalized email, avatar) and appended; in both cases the session is
bound to that user's id, the caller is redirected to the success
destination, and afterwards the subject identifier maps to exactly one
stored record. -/
theorem google_callback_upsert (frontendUrl : String) (db : List User)
    (freshId : Nat) (p : GoogleProfile) (nm em ph : String)
    (hname : p.displayName = some nm)
    (hemail : p.emails.bind List.head? = some em)
    (hphoto : p.photos.bind List.head? = some ph)
    (hgid : (db.map User.googleId).Nodup)
    (hfreshMail : findByGoogleId db p.id = none →
        ∀ u ∈ db, u.email ≠ normalizeEmail em) :
    ∃ u : User, ∃ db' : List User,
      googleVerify db freshId p = (some u, db') ∧
      u.googleId = p.id ∧
      googleCallbackRoute frontendUrl db freshId (ProviderOutcome.profile p) =
        (db', some (serializeUser u),
         HttpResponse.redirect (frontendUrl ++ "/")) ∧
      countByGoogleId db' p.id = 1 ∧
      (match findByGoogleId db p.id with
       | some w => u = w ∧ db' = db
       | none => u = ⟨freshId, p.id, nm, normalizeEmail em, some ph⟩ ∧
                 db' = db ++ [u]) := by
  cases hfound : findByGoogleId db p.id with
  | some w =>
    have hverify : googleVerify db freshId p = (some w, db) := by
      unfold googleVerify
      rw [hfound]
    have hfound' : db.find? (fun x => x.googleId == p.id) = some w := hfound
    have hwg : w.googleId = p.id := by
      have hp := List.find?_some hfound'
      simpa using hp
    have hwmem : w ∈ db := List.mem_of_find?_eq_some hfound'
    refine ⟨w, db, hverify, hwg, ?_, ?_, ?_⟩
    · simp [googleCallbackRoute, hverify]
    · exact countByGoogleId_eq_one hwmem hwg hgid
    · exact ⟨rfl, rfl⟩
  | none =>
    have hfound' : db.find? (fun x => x.googleId == p.id) = none := hfound
    have hany1 : db.any (fun x => x.googleId == p.id) = false := by
      simp only [List.any_eq_false]
      exact fun x hx => List.find?_eq_none.mp hfound' x hx
    have hany2 : db.any (fun x => x.email == normalizeEmail em) = false := by
      simp only [List.any_eq_false, beq_iff_eq]
      exact fun x hx => hfreshMail hfound x hx
    have hsave : userSave db freshId p.id p.displayName (some em) (some ph) =
        some (⟨freshId, p.id, nm, normalizeEmail em, some ph⟩,
              db ++ [⟨freshId, p.id, nm, normalizeEmail em, some ph⟩]) := by
      rw [hname]
      simp [userSave, hany1, hany2]
    have hverify : googleVerify db freshId p =
        (some ⟨freshId, p.id, nm, normalizeEmail em, some ph⟩,
         db ++ [⟨freshId, p.id, nm, normalizeEmail em, some ph⟩]) := by
      unfold googleVerify
      rw [hfound, hemail, hphoto]
      show (match userSave db freshId p.id p.displayName (some em) (some ph) with
            | some (u, db') => (some u, db')
            | none => (none, db)) = _
      rw [hsave]
    have hnotin : p.id ∉ db.map User.googleId := by
      intro hcontra
      obtain ⟨x, hx, hxe⟩ := List.mem_map.mp hcontra
      have := List.find?_eq_none.mp hfound' x hx
      simp [hxe] at this
    have hnodup2 :
        ((db ++ [(⟨freshId, p.id, nm, normalizeEmail em, some ph⟩ : User)]).map
          User.googleId).Nodup := by
      rw [List.map_append]
      rw [List.nodup_append]
      refine ⟨hgid, by simp, ?_⟩
      intro a ha hb
      simp only [List.map_cons, List.map_nil, List.mem_cons,
        List.not_mem_nil, or_false] at hb
      rw [hb] at ha
      exact hnotin ha
    refine ⟨⟨freshId, p.id, nm, normalizeEmail em, some ph⟩,
            db ++ [⟨freshId, p.id, nm, normalizeEmail em, some ph⟩],
            hverify, rfl, ?_, ?_, ?_⟩
    · simp [googleCallbackRoute, hverify]
    · exact @countByGoogleId_eq_one
        (db ++ [⟨freshId, p.id, nm, normalizeEmail em, some ph⟩])
        ⟨freshId, p.id, nm, normalizeEmail em, some ph⟩ p.id
        (by simp) rfl hnodup2
    · exact ⟨rfl, rfl⟩

/-- Witness for C3: a first login on an empty store creates the one user
from the profile payload, binds the session to it and redirects. -/
theorem google_callback_upsert_witness :
    (⟨"g1", some "Alice", some ["A@B.com "], some ["pic"]⟩ :
        GoogleProfile).displayName = some "Alice" ∧
    (⟨"g1", some "Alice", some ["A@B.com "], some ["pic"]⟩ :
        GoogleProfile).emails.bind List.head? = some "A@B.com " ∧
    (⟨"g1", some "Alice", some ["A@B.com "], some ["pic"]⟩ :
        GoogleProfile).photos.bind List.head? = some "pic" ∧
    (([] : List User).map User.googleId).Nodup ∧
    (findByGoogleId [] "g1" = none →
        ∀ u ∈ ([] : List User), u.email ≠ normalizeEmail "A@B.com ") ∧
    (∃ u : User, ∃ db' : List User,
      googleVerify [] 1 ⟨"g1", some "Alice", some ["A@B.com "], some ["pic"]⟩ =
        (some u, db') ∧
      u.googleId = "g1" ∧
      googleCallbackRoute "F" [] 1
          (ProviderOutcome.profile
            ⟨"g1", some "Alice", some ["A@B.com "], some ["pic"]⟩) =
        (db', some (serializeUser u), HttpResponse.redirect ("F" ++ "/")) ∧
      countByGoogleId db' "g1" = 1 ∧
      (match findByGoogleId [] "g1" with
       | some w => u = w ∧ db' = []
       | none => u = ⟨1, "g1", "Alice", normalizeEmail "A@B.com ", some "pic"⟩ ∧
                 db' = [] ++ [u])) :=
  ⟨rfl, rfl, rfl, by decide, by decide,
   google_callback_upsert "F" [] 1
     ⟨"g1", some "Alice", some ["A@B.com "], some ["pic"]⟩
     "Alice" "A@B.com " "pic" rfl rfl rfl (by decide) (by decide)⟩

/-- C4.  Toggle-like: for an existing meme and an authenticated caller,
one call adds the caller to the like-set if absent (reporting `liked=true`)
or removes them if present (reporting `liked=false`), together with the
resulting count, and never errors; a second call by the same caller
restores the like-set, the count and indeed the whole meme store to their
values before the first call. -/
theorem toggle_like_involution (db : List Meme) (m : Meme) (caller id : Nat)
    (hfind : findMemeAny db id = some m)
    (hids : (db.map Meme.mongoId).Nodup) :
    (caller ∉ m.likedBy →
      toggleLike db caller id =
        ApiOut.ok (true, (insert caller m.likedBy).card,
          updateById db id { m with likedBy := insert caller m.likedBy }) ∧
      toggleLike (updateById db id { m with likedBy := insert caller m.likedBy })
          caller id =
        ApiOut.ok (false, m.likedBy.card, db)) ∧
    (caller ∈ m.likedBy →
      toggleLike db caller id =
        ApiOut.ok (false, (m.likedBy.erase caller).card,
          updateById db id { m with likedBy := m.likedBy.erase caller }) ∧
      toggleLike (updateById db id { m with likedBy := m.likedBy.erase caller })
          caller id =
        ApiOut.ok (true, m.likedBy.card, db)) := by
  have hmid : (m.mongoId == id) = true := by
    have hp := List.find?_some
      (show List.find? (fun x => x.mongoId == id) db = some m from hfind)
    simpa using hp
  constructor
  · intro hnot
    refine ⟨?_, ?_⟩
    · simp only [toggleLike, hfind, if_neg hnot]
    · have hfind1 :
          findMemeAny (updateById db id { m with likedBy := insert caller m.likedBy })
            id = some { m with likedBy := insert caller m.likedBy } :=
        findMemeAny_updateById _ hfind rfl
      have hmem1 : caller ∈ ({ m with likedBy := insert caller m.likedBy } : Meme).likedBy :=
        Finset.mem_insert_self caller m.likedBy
      simp only [toggleLike, hfind1, if_pos hmem1]
      have herase : (insert caller m.likedBy).erase caller = m.likedBy :=
        Finset.erase_insert hnot
      have hwrite :
          updateById
            (updateById db id { m with likedBy := insert caller m.likedBy }) id
            { m with likedBy := (insert caller m.likedBy).erase caller } = db := by
        rw [updateById_twice { m with likedBy := insert caller m.likedBy }
              { m with likedBy := (insert caller m.likedBy).erase caller } hmid]
        rw [herase]
        exact updateById_self hfind hids
      rw [herase] at hwrite ⊢
      rw [hwrite]
  · intro hmem
    refine ⟨?_, ?_⟩
    · simp only [toggleLike, hfind, if_pos hmem]
    · have hfind1 :
          findMemeAny (updateById db id { m with likedBy := m.likedBy.erase caller })
            id = some { m with likedBy := m.likedBy.erase caller } :=
        findMemeAny_updateById _ hfind rfl
      have hnot1 : caller ∉ ({ m with likedBy := m.likedBy.erase caller } : Meme).likedBy :=
        Finset.not_mem_erase caller m.likedBy
      simp only [toggleLike, hfind1, if_neg hnot1]
      have hinsert : insert caller (m.likedBy.erase caller) = m.likedBy :=
        Finset.insert_erase hmem
      have hwrite :
          updateById
            (updateById db id { m with likedBy := m.likedBy.erase caller }) id
            { m with likedBy := insert caller (m.likedBy.erase caller) } = db := by
        rw [updateById_twice { m with likedBy := m.likedBy.erase caller }
              { m with likedBy := insert caller (m.likedBy.erase caller) } hmid]
        rw [hinsert]
        exact updateById_self hfind hids
      rw [hinsert] at hwrite ⊢
      rw [hwrite]

/-- Witness for C4: toggling user 7 on a one-meme store likes it (count 1)
and toggling again restores the empty like-set, count 0 and the store. -/
theorem toggle_like_involution_witness :
    findMemeAny [(⟨1, 10, "cat pic", "http://img/x.png", "Funny", ∅⟩ : Meme)] 1 =
      some ⟨1, 10, "cat pic", "http://img/x.png", "Funny", ∅⟩ ∧
    (([(⟨1, 10, "cat pic", "http://img/x.png", "Funny", ∅⟩ : Meme)]).map
      Meme.mongoId).Nodup ∧
    ((7 : Nat) ∉ (⟨1, 10, "cat pic", "http://img/x.png", "Funny", ∅⟩ : Meme).likedBy →
      toggleLike [(⟨1, 10, "cat pic", "http://img/x.png", "Funny", ∅⟩ : Meme)] 7 1 =
        ApiOut.ok (true,
          (insert 7 (⟨1, 10, "cat pic", "http://img/x.png", "Funny", ∅⟩ : Meme).likedBy).card,
          updateById [(⟨1, 10, "cat pic", "http://img/x.png", "Funny", ∅⟩ : Meme)] 1
            { (⟨1, 10, "cat pic", "http://img/x.png", "Funny", ∅⟩ : Meme) with
                likedBy := insert 7 (⟨1, 10, "cat pic", "http://img/x.png", "Funny", ∅⟩ : Meme).likedBy }) ∧
      toggleLike
          (updateById [(⟨1, 10, "cat pic", "http://img/x.png", "Funny", ∅⟩ : Meme)] 1
            { (⟨1, 10, "cat pic", "http://img/x.png", "Funny", ∅⟩ : Meme) with
                likedBy := insert 7 (⟨1, 10, "cat pic", "http://img/x.png", "Funny", ∅⟩ : Meme).likedBy })
          7 1 =
        ApiOut.ok (false,
          (⟨1, 10, "cat pic", "http://img/x.png", "Funny", ∅⟩ : Meme).likedBy.card,
          [(⟨1, 10, "cat pic", "http://img/x.png", "Funny", ∅⟩ : Meme)])) :=
  ⟨by decide, by decide,
   (toggle_like_involution
     [(⟨1, 10, "cat pic", "http://img/x.png", "Funny", ∅⟩ : Meme)]
     ⟨1, 10, "cat pic", "http://img/x.png", "Funny", ∅⟩ 7 1
     (by decide) (by decide)).1⟩

/-- C5.  Listing with pagination: for a caller owning `N` memes and page
size `limit > 0`, the list result reports `totalItems = N` and a
`totalPages` that is exactly the ceiling of `N / limit` (it covers all
items and is the least such page count); a requested page beyond
`totalPages` yields an empty item list rather than an error; every returned
item is owned by the caller; the page number is echoed and page 1 starts at
the first owned item. -/
theorem list_memes_pagination (db : List Meme) (caller page limit N : Nat)
    (hlim : 0 < limit)
    (hN : (db.filter (fun m => m.owner == caller)).length = N) :
    (listMemes db caller page limit none none).currentPage = page ∧
    (listMemes db caller page limit none none).totalItems = N ∧
    N ≤ (listMemes db caller page limit none none).totalPages * limit ∧
    (∀ q : Nat, N ≤ q * limit →
        (listMemes db caller page limit none none).totalPages ≤ q) ∧
    (page > (listMemes db caller page limit none none).totalPages →
        (listMemes db caller page limit none none).items = []) ∧
    (∀ x ∈ (listMemes db caller page limit none none).items, x.owner = caller) ∧
    (page = 1 →
        (listMemes db caller page limit none none).items =
          (db.filter (fun m => m.owner == caller)).take limit) := by
  have hred : listMemes db caller page limit none none =
      { items := ((db.filter (fun m => m.owner == caller)).drop
          ((page - 1) * limit)).take limit
        totalItems := (db.filter (fun m => m.owner == caller)).length
        totalPages :=
          ((db.filter (fun m => m.owner == caller)).length + limit - 1) / limit
        currentPage := page } := by
    simp [listMemes, List.filter_true]
  rw [hred, hN]
  dsimp only
  have hcover : N ≤ ((N + limit - 1) / limit) * limit := by
    have h1 : (N + limit - 1) / limit ≤ (N + limit - 1) / limit := le_refl _
    rw [Nat.div_le_iff_le_mul_add_pred hlim] at h1
    rw [Nat.mul_comm]
    omega
  have hleast : ∀ q : Nat, N ≤ q * limit → (N + limit - 1) / limit ≤ q := by
    intro q hk
    rw [Nat.div_le_iff_le_mul_add_pred hlim]
    rw [Nat.mul_comm] at hk
    omega
  refine ⟨rfl, rfl, hcover, hleast, ?_, ?_, ?_⟩
  · intro hp
    have h2 : (N + limit - 1) / limit ≤ page - 1 := by omega
    have h3 : ((N + limit - 1) / limit) * limit ≤ (page - 1) * limit :=
      Nat.mul_le_mul_right limit h2
    have h4 : (db.filter (fun m => m.owner == caller)).length ≤
        (page - 1) * limit := by
      rw [hN]
      omega
    simp only [List.drop_eq_nil_of_le h4, List.take_nil]
  · intro x hx
    have hx1 : x ∈ (db.filter (fun m => m.owner == caller)).drop
        ((page - 1) * limit) := List.mem_of_mem_take hx
    have hx2 : x ∈ db.filter (fun m => m.owner == caller) :=
      List.mem_of_mem_drop hx1
    have := (List.mem_filter.mp hx2).2
    simpa using this
  · intro hp
    subst hp
    simp

/-- Witness for C5: one owned meme, page size 1; page 2 is past the single
total page and comes back empty, while page 1 holds the meme. -/
theorem list_memes_pagination_witness :
    (0 : Nat) < 1 ∧
    (([(⟨1, 10, "cat pic", "http://img/x.png", "Funny", ∅⟩ : Meme)]).filter
      (fun m => m.owner == 10)).length = 1 ∧
    ((listMemes [(⟨1, 10, "cat pic", "http://img/x.png", "Funny", ∅⟩ : Meme)]
        10 2 1 none none).currentPage = 2 ∧
     (listMemes [(⟨1, 10, "cat pic", "http://img/x.png", "Funny", ∅⟩ : Meme)]
        10 2 1 none none).totalItems = 1 ∧
     1 ≤ (listMemes [(⟨1, 10, "cat pic", "http://img/x.png", "Funny", ∅⟩ : Meme)]
        10 2 1 none none).totalPages * 1 ∧
     (∀ q : Nat, 1 ≤ q * 1 →
        (listMemes [(⟨1, 10, "cat pic", "http://img/x.png", "Funny", ∅⟩ : Meme)]
          10 2 1 none none).totalPages ≤ q) ∧
     (2 > (listMemes [(⟨1, 10, "cat pic", "http://img/x.png", "Funny", ∅⟩ : Meme)]
          10 2 1 none none).totalPages →
        (listMemes [(⟨1, 10, "cat pic", "http://img/x.png", "Funny", ∅⟩ : Meme)]
          10 2 1 none none).items = []) ∧
     (∀ x ∈ (listMemes [(⟨1, 10, "cat pic", "http://img/x.png", "Funny", ∅⟩ : Meme)]
          10 2 1 none none).items, x.owner = 10) ∧
     ((2 : Nat) = 1 →
        (listMemes [(⟨1, 10, "cat pic", "http://img/x.png", "Funny", ∅⟩ : Meme)]
          10 2 1 none none).items =
          (([(⟨1, 10, "cat pic", "http://img/x.png", "Funny", ∅⟩ : Meme)]).filter
            (fun m => m.owner == 10)).take 1)) :=
  ⟨by decide, by decide,
   list_memes_pagination [(⟨1, 10, "cat pic", "http://img/x.png", "Funny", ∅⟩ : Meme)]
     10 2 1 1 (by decide) (by decide)⟩

end MemeManager
